import Mathlib

/- Verification of the tensor/kernel resource-management layer of gpu.h
   (namespace gpu). Each definition below is a shallow embedding of the
   C++ entity named in its doc comment; device-object handles are modeled
   as natural numbers with 0 playing the role of the null handle, and the
   device itself as an explicit allocator state so that buffer creations
   and releases are observable. -/

namespace gpu

/-- Maximum rank of a tensor, Shape::kMaxRank (gpu.h:42). -/
def kMaxRank : Nat := 8

/-- Shape (gpu.h:41-60): a fixed-capacity zero-initialized array of
dimension sizes together with the used rank. The backing std::array of
size kMaxRank is modeled as a list read with default 0. -/
structure Shape where
  data : List Nat
  rank : Nat
deriving DecidableEq

/-- The initializer-list constructor Shape(dims) (gpu.h:47-51): copies
dims into the backing array and sets rank = dims.size (the constructor
asserts dims.size ≤ kMaxRank). -/
def mkShape (dims : List Nat) : Shape := ⟨dims, dims.length⟩

/-- Element access Shape::operator[] (gpu.h:52-59); the backing array is
zero-initialized, hence the default 0. -/
def Shape.get (s : Shape) (i : Nat) : Nat := s.data.getD i 0

/-- size(shape) (gpu.h:62-68): numels starts at 1 and is multiplied by
shape.data[i] for each i < shape.rank. -/
def size (shape : Shape) : Nat :=
  ((List.range shape.rank).map shape.get).foldl (fun a b => a * b) 1

/-- Array (gpu.h:32-36): a device buffer descriptor, holding the buffer
handle, the usage flags and the byte size. -/
structure Array where
  buffer : Nat
  usage : Nat
  size : Nat
deriving DecidableEq

/-- Tensor (gpu.h:74-77): an Array together with a Shape. -/
structure Tensor where
  data : Array
  shape : Shape
deriving DecidableEq

/-- Default-constructed Tensor (null buffer, empty shape). -/
def defTensor : Tensor := ⟨⟨0, 0, 0⟩, ⟨[], 0⟩⟩

/-- NumType (gpu.h:111), modeled by its underlying integer value so that
values outside the declared enumerator list (possible for a C++ enum)
remain representable. -/
abbrev NumType := Nat

/-- kf32, the only declared enumerator of NumType. -/
def kf32 : NumType := 0

/-- ToString(NumType) (gpu.h:116-124); the default branch logs an error
and returns "unknown". -/
def NumTypeToString (t : NumType) : List Char :=
  if t = kf32 then "f32".data else "unknown".data

/-- ToString(const Shape&) (gpu.h:131-140): the loop appends the decimal
form of data[i] for each i < rank, followed by ", " whenever
i < rank - 1. -/
def ShapeToString (s : Shape) : List Char :=
  ((List.range s.rank).map (fun i =>
    (Nat.repr (s.get i)).data ++ (if i < s.rank - 1 then ", ".data else []))).flatten

/-- Record of one wgpuDeviceCreateBuffer call: the returned handle plus
the usage flags and byte size of the descriptor it was given. -/
structure BufferAlloc where
  handle : Nat
  usage : Nat
  size : Nat
deriving DecidableEq

/-- State of the device-side buffer allocator: a source of fresh non-null
handles and the log of every buffer created on the device. -/
structure DeviceState where
  nextHandle : Nat
  allocated : List BufferAlloc
deriving DecidableEq

/-- wgpuDeviceCreateBuffer: returns a fresh handle and records the
allocation in the device state. -/
def wgpuDeviceCreateBuffer (dev : DeviceState) (usage sz : Nat) :
    Nat × DeviceState :=
  (dev.nextHandle, ⟨dev.nextHandle + 1, dev.allocated ++ [⟨dev.nextHandle, usage, sz⟩]⟩)

/-- A fresh device whose first handle is 1 (0 is the null handle). -/
def devInit : DeviceState := ⟨1, []⟩

/-- TensorPool registry (gpu.h:104-109): an unordered_map from buffer
handle to Tensor, modeled as an association list. -/
abbrev TensorPool := List (Nat × Tensor)

/-- Map lookup pool.data.find(k). -/
def poolLookup : TensorPool → Nat → Option Tensor
  | [], _ => none
  | (k', v) :: rest, k => if k' = k then some v else poolLookup rest k

/-- Map assignment pool.data[k] = v: replaces the entry when the key is
present, appends a new entry otherwise. -/
def poolInsert : TensorPool → Nat → Tensor → TensorPool
  | [], k, v => [(k, v)]
  | (k', v') :: rest, k, v =>
    if k' = k then (k, v) :: rest else (k', v') :: poolInsert rest k v

/-- Membership test pool.data.find(k) != pool.data.end(). -/
def poolContains (pool : TensorPool) (k : Nat) : Bool :=
  (poolLookup pool k).isSome

/-- Map erasure pool.data.erase(k). -/
def poolErase : TensorPool → Nat → TensorPool
  | [], _ => []
  | (k', v) :: rest, k => if k' = k then rest else (k', v) :: poolErase rest k

/-- Result of the CreateTensor embedding: the returned Tensor, the updated
pool and the updated device state. -/
structure CreateTensorResult where
  tensor : Tensor
  pool : TensorPool
  dev : DeviceState
deriving DecidableEq

/-- CreateTensor(pool, device, shape, dtype, usage) (gpu.h:278-300). The
element count is computed by a local loop identical to size(); the byte
size is sizeof(float) * numElements when dtype == kf32 and 0 otherwise.
A buffer is created and registered under its handle; note the second
wgpuDeviceCreateBuffer call at gpu.h:298 whose result is discarded. The
function returns pool.data[buffer]. -/
def CreateTensor (pool : TensorPool) (dev : DeviceState) (shape : Shape)
    (dtype : NumType) (usage : Nat) : CreateTensorResult :=
  let numElements := ((List.range shape.rank).map shape.get).foldl (fun a b => a * b) 1
  let sz := if dtype = kf32 then 4 * numElements else 0
  let r1 := wgpuDeviceCreateBuffer dev usage sz
  let pool1 := poolInsert pool r1.1 ⟨⟨r1.1, usage, sz⟩, shape⟩
  let r2 := wgpuDeviceCreateBuffer r1.2 usage sz
  ⟨(poolLookup pool1 r1.1).getD defTensor, pool1, r2.2⟩

/-- Result of the FreeTensor embedding: the updated pool, the handles
passed to wgpuBufferRelease, and the number of warnings logged. -/
structure FreeTensorResult where
  pool : TensorPool
  released : List Nat
  warnings : Nat
deriving DecidableEq

/-- FreeTensor(pool, tensor) (gpu.h:359-370): two independent checks.
wgpuBufferRelease(buffer) runs iff the handle is non-null (else a
warning is logged); the pool entry is erased iff the handle is a key of
the pool (else a warning is logged). -/
def FreeTensor (pool : TensorPool) (tensor : Tensor) : FreeTensorResult :=
  let rel := if tensor.data.buffer ≠ 0 then [tensor.data.buffer] else []
  let w1 := if tensor.data.buffer ≠ 0 then 0 else 1
  let pool' := if poolContains pool tensor.data.buffer then
      poolErase pool tensor.data.buffer else pool
  let w2 := if poolContains pool tensor.data.buffer then 0 else 1
  ⟨pool', rel, w1 + w2⟩

/-- Reading back the first l.length positions of the zero-defaulted
backing store returns l itself. -/
theorem range_map_getD (l : List Nat) :
    (List.range l.length).map (fun i => l.getD i 0) = l := by
  apply List.ext_getElem
  · simp
  · intro i h1 h2
    have h3 : i < l.length := by simpa using h1
    simp [List.getD_eq_getElem, h3]

/-- For a shape built from an initializer list, size is the product of
the dimensions. -/
theorem size_mkShape (dims : List Nat) : size (mkShape dims) = dims.prod := by
  unfold size mkShape Shape.get
  rw [range_map_getD]
  exact (List.prod_eq_foldl).symm

/-- Looking up the key just inserted returns the inserted value. -/
theorem poolLookup_insert_self (pool : TensorPool) (k : Nat) (v : Tensor) :
    poolLookup (poolInsert pool k v) k = some v := by
  induction pool with
  | nil => simp [poolInsert, poolLookup]
  | cons e rest ih =>
    by_cases h : e.1 = k
    · simp [poolInsert, poolLookup, h]
    · simp [poolInsert, poolLookup, h, ih]

/-- Erasing one key leaves lookups under every other key unchanged. -/
theorem poolErase_lookup_ne (pool : TensorPool) (k0 k : Nat) (h : k ≠ k0) :
    poolLookup (poolErase pool k0) k = poolLookup pool k := by
  induction pool with
  | nil => rfl
  | cons e rest ih =>
    obtain ⟨k', v⟩ := e
    by_cases he : k' = k0
    · subst he
      have hk' : ¬(k' = k) := fun hc => h hc.symm
      simp [poolErase, poolLookup, hk']
    · by_cases hk : k' = k
      · subst hk
        simp [poolErase, poolLookup, he]
      · simp [poolErase, poolLookup, he, hk, ih]

/-- C7: size(S) equals the product of the dimensions of S, with the empty
shape giving 1 and size {2,3,4} = 24; and CreateTensor computes the byte
size of the tensor it returns as 4 * element count for the supported kind
kf32, while any unrecognized numeric kind yields byte size 0 rather than
failing. -/
theorem size_prod_and_byteSize :
    (∀ dims : List Nat, size (mkShape dims) = dims.prod)
    ∧ size (mkShape []) = 1
    ∧ size (mkShape [2, 3, 4]) = 24
    ∧ ∀ (pool : TensorPool) (dev : DeviceState) (dims : List Nat)
        (dtype : NumType) (usage : Nat),
        (CreateTensor pool dev (mkShape dims) dtype usage).tensor.data.size =
          if dtype = kf32 then 4 * dims.prod else 0 := by
  refine ⟨size_mkShape, by decide, by decide, ?_⟩
  intro pool dev dims dtype usage
  unfold CreateTensor
  simp only [poolLookup_insert_self, Option.getD_some]
  have h : ((List.range (mkShape dims).rank).map (mkShape dims).get).foldl
      (fun a b => a * b) 1 = dims.prod := by
    have := size_mkShape dims
    unfold size at this
    exact this
  rw [h]

/-- C4: evaluating CreateTensor on a fresh device shows that the code
performs two wgpuDeviceCreateBuffer calls per tensor (the second, at
gpu.h:298, is discarded), even though exactly one pool entry is
registered and the returned Tensor aliases that entry. -/
theorem CreateTensor_double_allocation :
    ((CreateTensor [] devInit (mkShape [2, 3]) kf32 7).dev.allocated.length = 2)
    ∧ ((CreateTensor [] devInit (mkShape [2, 3]) kf32 7).pool.length = 1)
    ∧ ((CreateTensor [] devInit (mkShape [2, 3]) kf32 7).tensor =
        ⟨⟨1, 7, 24⟩, mkShape [2, 3]⟩) := by
  decide

/-- C5 counterexample: freeing a tensor whose non-null handle 5 is absent
from the (empty) pool still releases buffer 5, while the claim says the
buffer is left untouched in the absent-from-pool case. -/
theorem FreeTensor_releases_unpooled_buffer :
    (⟨⟨5, 7, 16⟩, mkShape [4]⟩ : Tensor).data.buffer ≠ 0
    ∧ poolContains [] (⟨⟨5, 7, 16⟩, mkShape [4]⟩ : Tensor).data.buffer = false
    ∧ (FreeTensor [] ⟨⟨5, 7, 16⟩, mkShape [4]⟩).released = [5]
    ∧ (FreeTensor [] ⟨⟨5, 7, 16⟩, mkShape [4]⟩).released ≠ [] := by
  decide

/-- C5 (amended): The two checks of FreeTensor are independent: the buffer is
released iff its handle is non-null (even when the handle is absent from
the pool), and the pool entry is erased iff the handle is a key of the
pool (even when the handle is null); each failed check logs one warning,
the call is total (no crash), and pool entries under other keys are left
untouched. -/
theorem FreeTensor_checks_independent (pool : TensorPool) (t : Tensor) :
    ((FreeTensor pool t).released =
      if t.data.buffer ≠ 0 then [t.data.buffer] else [])
    ∧ ((FreeTensor pool t).pool =
      if poolContains pool t.data.buffer then
        poolErase pool t.data.buffer else pool)
    ∧ ((FreeTensor pool t).warnings =
      (if t.data.buffer ≠ 0 then 0 else 1)
        + (if poolContains pool t.data.buffer then 0 else 1))
    ∧ ∀ k, k ≠ t.data.buffer →
        poolLookup (FreeTensor pool t).pool k = poolLookup pool k := by
  refine ⟨rfl, rfl, rfl, ?_⟩
  intro k hk
  show poolLookup (if poolContains pool t.data.buffer then
      poolErase pool t.data.buffer else pool) k = poolLookup pool k
  by_cases h : poolContains pool t.data.buffer
  · rw [if_pos h]
    exact poolErase_lookup_ne pool t.data.buffer k hk
  · rw [if_neg h]

theorem FreeTensor_checks_independent_witness :
    (FreeTensor [(3, defTensor)] ⟨⟨5, 7, 16⟩, mkShape [4]⟩).released = [5]
    ∧ poolLookup (FreeTensor [(3, defTensor)] ⟨⟨5, 7, 16⟩, mkShape [4]⟩).pool 3 =
        poolLookup [(3, defTensor)] 3 := by
  constructor
  · have h := (FreeTensor_checks_independent [(3, defTensor)]
      ⟨⟨5, 7, 16⟩, mkShape [4]⟩).1
    simpa using h
  · exact (FreeTensor_checks_independent [(3, defTensor)]
      ⟨⟨5, 7, 16⟩, mkShape [4]⟩).2.2.2 3 (by decide)

/-- Prefix test on character lists, used to model std::string::find. -/
def isPrefixB : List Char → List Char → Bool
  | [], _ => true
  | _ :: _, [] => false
  | c :: p, d :: s => c == d && isPrefixB p s

/-- ReplaceAll(str, from, to) (gpu.h:401-408): repeatedly find the
leftmost occurrence of the pattern at or after the current position,
replace it, and continue scanning right after the inserted text. The
while loop is modeled by structural recursion on the string; for an
empty pattern the C++ loop does not terminate and the model leaves the
string unchanged (both placeholder patterns used by CreateShader are
nonempty). -/
def ReplaceAll (pat rep : List Char) : List Char → List Char
  | [] => []
  | c :: s =>
    if h : (!pat.isEmpty && isPrefixB pat (c :: s)) = true then
      rep ++ ReplaceAll pat rep ((c :: s).drop pat.length)
    else
      c :: ReplaceAll pat rep s
termination_by s => s.length
decreasing_by
  · simp only [List.length_drop, List.length_cons]
    have hp : pat.length ≠ 0 := by
      simp only [Bool.and_eq_true] at h
      cases pat with
      | nil => simp at h
      | cons a q => simp
    omega
  · simp

/-- Does pat occur as a contiguous substring of s? -/
def occursB (pat : List Char) : List Char → Bool
  | [] => isPrefixB pat []
  | c :: s => isPrefixB pat (c :: s) || occursB pat s

/-- Every position strictly inside t fails to start an occurrence of pat
in t ++ pat: the leftmost occurrence of pat in t ++ pat is the final
one. -/
def cleanSegB (pat : List Char) : List Char → Bool
  | [] => true
  | c :: t => !(isPrefixB pat (c :: (t ++ pat))) && cleanSegB pat t

/-- Interleave the separator between consecutive segments. -/
def joinWith (sep : List Char) : List (List Char) → List Char
  | [] => []
  | [t] => t
  | t :: r :: rest => t ++ (sep ++ joinWith sep (r :: rest))

/-- All segments of a decomposition are clean: each junction segment
admits no earlier occurrence of pat, and pat does not occur in the final
segment. -/
def cleanSegsB (pat : List Char) : List (List Char) → Bool
  | [] => true
  | [t] => !occursB pat t
  | t :: r :: rest => cleanSegB pat t && cleanSegsB pat (r :: rest)

theorem isPrefixB_append_self (p x : List Char) : isPrefixB p (p ++ x) = true := by
  induction p with
  | nil => simp [isPrefixB]
  | cons c p ih => simp [isPrefixB, ih]

theorem isPrefixB_append_left (p a b : List Char) (h : p.length ≤ a.length) :
    isPrefixB p (a ++ b) = isPrefixB p a := by
  induction p generalizing a with
  | nil => simp [isPrefixB]
  | cons c p ih =>
    cases a with
    | nil => simp at h
    | cons d a' =>
      simp only [List.cons_append, isPrefixB]
      congr 1
      exact ih a' (by simpa using h)

theorem ReplaceAll_nil (pat rep : List Char) : ReplaceAll pat rep [] = [] := by
  rw [ReplaceAll]

theorem ReplaceAll_cons_pos (pat rep : List Char) (c : Char) (s : List Char)
    (h : (!pat.isEmpty && isPrefixB pat (c :: s)) = true) :
    ReplaceAll pat rep (c :: s) =
      rep ++ ReplaceAll pat rep ((c :: s).drop pat.length) := by
  rw [ReplaceAll, dif_pos h]

theorem ReplaceAll_cons_neg (pat rep : List Char) (c : Char) (s : List Char)
    (h : ¬((!pat.isEmpty && isPrefixB pat (c :: s)) = true)) :
    ReplaceAll pat rep (c :: s) = c :: ReplaceAll pat rep s := by
  rw [ReplaceAll, dif_neg h]

/-- A string in which the pattern does not occur is left unchanged. -/
theorem ReplaceAll_not_occurs (pat rep s : List Char)
    (h : occursB pat s = false) : ReplaceAll pat rep s = s := by
  induction s with
  | nil => exact ReplaceAll_nil pat rep
  | cons c s ih =>
    have h' := h
    simp only [occursB, Bool.or_eq_false_iff] at h'
    rw [ReplaceAll_cons_neg pat rep c s (by simp [h'.1]), ih h'.2]

/-- A clean junction segment followed by the pattern: the segment is
copied verbatim, the pattern occurrence is replaced, and rewriting
continues on the remainder. -/
theorem ReplaceAll_step (pat rep x t : List Char) (hp : pat ≠ [])
    (hc : cleanSegB pat t = true) :
    ReplaceAll pat rep (t ++ (pat ++ x)) = t ++ (rep ++ ReplaceAll pat rep x) := by
  induction t with
  | nil =>
    simp only [List.nil_append]
    cases pat with
    | nil => exact absurd rfl hp
    | cons c p =>
      have hpre : isPrefixB (c :: p) (c :: (p ++ x)) = true :=
        isPrefixB_append_self (c :: p) x
      simp only [List.cons_append]
      rw [ReplaceAll_cons_pos (c :: p) rep c (p ++ x) (by simp [hpre])]
      congr 1
      simp only [List.length_cons, List.drop_succ_cons, List.drop_left]
  | cons c t ih =>
    simp only [cleanSegB, Bool.and_eq_true, Bool.not_eq_true'] at hc
    have h2 : isPrefixB pat (c :: (t ++ (pat ++ x))) = false := by
      have hlen : pat.length ≤ (c :: (t ++ pat)).length := by
        simp only [List.length_cons, List.length_append]
        omega
      have h3 := isPrefixB_append_left pat (c :: (t ++ pat)) x hlen
      simp only [List.cons_append, List.append_assoc] at h3 ⊢
      rw [h3, hc.1]
    rw [show (c :: t) ++ (pat ++ x) = c :: (t ++ (pat ++ x)) from rfl]
    rw [ReplaceAll_cons_neg pat rep c (t ++ (pat ++ x)) (by simp [h2]), ih hc.2]
    rfl

/-- ReplaceAll substitutes every occurrence of a nonempty pattern in a
clean decomposition and leaves all segments unchanged. -/
theorem ReplaceAll_joinWith (pat rep : List Char) (segs : List (List Char))
    (hp : pat ≠ []) (hc : cleanSegsB pat segs = true) :
    ReplaceAll pat rep (joinWith pat segs) = joinWith rep segs := by
  induction segs with
  | nil => simp [joinWith, ReplaceAll_nil]
  | cons t rest ih =>
    cases rest with
    | nil =>
      simp only [joinWith]
      apply ReplaceAll_not_occurs
      simpa [cleanSegsB] using hc
    | cons r rest' =>
      simp only [cleanSegsB, Bool.and_eq_true] at hc
      simp only [joinWith]
      rw [ReplaceAll_step pat rep _ t hp hc.1, ih hc.2]

/-- ShaderCode (gpu.h:148-160): shader text plus a 3-axis workgroup size
and a numeric precision. -/
structure ShaderCode where
  data : List Char
  workgroupSize : Shape
  precision : NumType
deriving DecidableEq

/-- The workgroupSize placeholder token (gpu.h:431). -/
def wkToken : List Char := "\x7b\x7bworkgroupSize\x7d\x7d".data

/-- The precision placeholder token (gpu.h:432). -/
def precToken : List Char := "\x7b\x7bprecision\x7d\x7d".data

/-- CreateShader(shaderTemplate, workgroupSize, precision)
(gpu.h:427-435): substitutes the workgroupSize token with
ToString(workgroupSize), then the precision token with
ToString(precision). The returned ShaderCode is built with the
two-argument constructor ShaderCode{codeString, workgroupSize}
(gpu.h:434), whose precision field defaults to kf32. -/
def CreateShader (shaderTemplate : List Char) (workgroupSize : Shape)
    (precision : NumType) : ShaderCode :=
  let c1 := ReplaceAll wkToken (ShapeToString workgroupSize) shaderTemplate
  let c2 := ReplaceAll precToken (NumTypeToString precision) c1
  ⟨c2, workgroupSize, kf32⟩

/-- C9: for every shader template that decomposes into segments around
the occurrences of the workgroupSize placeholder token (and, after that
substitution, into segments around the occurrences of the precision
placeholder token), CreateShader substitutes every occurrence of each
placeholder — not just the first — with the canonical string form of the
workgroup Shape respectively of the precision, identically at each
occurrence, and leaves all non-matching segments of the template
unchanged. -/
theorem CreateShader_replaces_every_occurrence
    (ws : Shape) (prec : NumType) (segs1 segs2 : List (List Char))
    (h1 : cleanSegsB wkToken segs1 = true)
    (h2 : joinWith (ShapeToString ws) segs1 = joinWith precToken segs2)
    (h3 : cleanSegsB precToken segs2 = true) :
    (CreateShader (joinWith wkToken segs1) ws prec).data =
      joinWith (NumTypeToString prec) segs2 := by
  show ReplaceAll precToken (NumTypeToString prec)
      (ReplaceAll wkToken (ShapeToString ws) (joinWith wkToken segs1)) =
      joinWith (NumTypeToString prec) segs2
  rw [ReplaceAll_joinWith wkToken _ segs1 (by decide) h1, h2,
    ReplaceAll_joinWith precToken _ segs2 (by decide) h3]

theorem CreateShader_replaces_every_occurrence_witness :
    (CreateShader
      "A\x7b\x7bworkgroupSize\x7d\x7dB\x7b\x7bworkgroupSize\x7d\x7dC\x7b\x7bprecision\x7d\x7dD\x7b\x7bprecision\x7d\x7dE".data
      (mkShape [256, 1, 1]) kf32).data =
      "A256, 1, 1B256, 1, 1Cf32Df32E".data := by
  have h := CreateShader_replaces_every_occurrence (mkShape [256, 1, 1]) kf32
    ["A".data, "B".data, "C\x7b\x7bprecision\x7d\x7dD\x7b\x7bprecision\x7d\x7dE".data]
    ["A256, 1, 1B256, 1, 1C".data, "D".data, "E".data]
    (by decide) (by decide) (by decide)
  have e1 : joinWith wkToken
      ["A".data, "B".data, "C\x7b\x7bprecision\x7d\x7dD\x7b\x7bprecision\x7d\x7dE".data] =
      "A\x7b\x7bworkgroupSize\x7d\x7dB\x7b\x7bworkgroupSize\x7d\x7dC\x7b\x7bprecision\x7d\x7dD\x7b\x7bprecision\x7d\x7dE".data := by
    decide
  have e2 : joinWith (NumTypeToString kf32)
      ["A256, 1, 1B256, 1, 1C".data, "D".data, "E".data] =
      "A256, 1, 1B256, 1, 1Cf32Df32E".data := by
    decide
  rw [e1] at h
  rw [h, e2]

/-- Outcome of one call to the fatal-error helper check. -/
inductive CheckOutcome
  | proceeded
  | exited
deriving DecidableEq

/-- Observable behavior of one check call: whether execution continued
past it, and which log lines it produced. -/
structure CheckResult where
  outcome : CheckOutcome
  loggedError : Bool
  loggedTrace : Bool
deriving DecidableEq

/-- check(condition, message, file, line) (gpu.h:454-466): under
`if constexpr (kDebug)` a false condition logs an error and exits the
process while a true condition logs a trace line; with kDebug false the
whole body is compiled away. kDebug (gpu.h:23-27) is true exactly when
NDEBUG is not defined and is modeled as an explicit parameter. -/
def check (kDebug : Bool) (condition : Bool) : CheckResult :=
  if kDebug then
    if condition = false then ⟨CheckOutcome.exited, true, false⟩
    else ⟨CheckOutcome.proceeded, false, true⟩
  else ⟨CheckOutcome.proceeded, false, false⟩

/-- C10: check logs an error and terminates the process on a false
condition only when kDebug is true (NDEBUG not defined); in a release
build check is a no-op for every condition — it neither logs nor exits,
so every construction-failure check routed through it silently
continues. -/
theorem check_noop_in_release :
    (∀ condition : Bool,
      check false condition = ⟨CheckOutcome.proceeded, false, false⟩)
    ∧ (check true false).outcome = CheckOutcome.exited
    ∧ (check true false).loggedError = true
    ∧ (check true true).outcome = CheckOutcome.proceeded := by
  decide

/-- Observable behavior of one request stage of CreateContext. -/
structure StageResult where
  pumpCalls : Nat
  flagAtCheck : Bool
  aborted : Bool
  proceeded : Bool
  resultHandle : Nat
deriving DecidableEq

/-- One request stage of CreateContext — the adapter stage
(gpu.h:495-514) and the device stage (gpu.h:516-560) have the same
structure. The wrapped request call invokes the stage callback
synchronously iff the backend delivers it during the call
(callbackFires); the callback stores the handle and sets the local
requestEnded flag. The stage then executes assert(requestEnded) — active
only when NDEBUG is not defined (kDebug) — and reads the handle into the
Context field. No call to wgpuInstanceProcessEvents occurs anywhere in
CreateContext, so pumpCalls is 0 in every outcome. -/
def requestStage (kDebug : Bool) (callbackFires : Bool) (handle : Nat) :
    StageResult :=
  let flag := callbackFires
  let value := if callbackFires then handle else 0
  if kDebug && !flag then ⟨0, flag, true, false, 0⟩
  else ⟨0, flag, false, true, value⟩

/-- C6 counterexample: when the callback is not delivered during the
request call, the stage performs zero event-pump calls and, in a release
build, proceeds past the flag check with the flag still unset and reads
a null handle; in a debug build it aborts, again without ever pumping.
There is no loop pumping the event-processing function until the flag is
observed set. -/
theorem CreateContext_stage_no_pump_loop :
    (requestStage false false 7).pumpCalls = 0
    ∧ (requestStage false false 7).proceeded = true
    ∧ (requestStage false false 7).flagAtCheck = false
    ∧ (requestStage false false 7).resultHandle = 0
    ∧ (requestStage true false 7).pumpCalls = 0
    ∧ (requestStage true false 7).aborted = true := by
  decide

/-- C6 (amended): each request stage issues the request and immediately
executes assert(requestEnded), never calling the event-processing
function (zero pump calls); it relies on the callback firing
synchronously during the request call. When the callback fires, the flag
is set and the handle is read; when it does not, a debug build aborts at
the assert while a release build proceeds with the flag unset and a null
handle. -/
theorem requestStage_assert_no_loop (dbg fires : Bool) (h : Nat) :
    (requestStage dbg fires h).pumpCalls = 0
    ∧ (fires = true → requestStage dbg fires h = ⟨0, true, false, true, h⟩)
    ∧ (fires = false → dbg = true →
        (requestStage dbg fires h).aborted = true
        ∧ (requestStage dbg fires h).proceeded = false)
    ∧ (fires = false → dbg = false →
        (requestStage dbg fires h).proceeded = true
        ∧ (requestStage dbg fires h).flagAtCheck = false
        ∧ (requestStage dbg fires h).resultHandle = 0) := by
  cases dbg <;> cases fires <;> simp [requestStage]

theorem requestStage_assert_no_loop_witness :
    (requestStage true true 5).pumpCalls = 0
    ∧ requestStage true true 5 = ⟨0, true, false, true, 5⟩ :=
  ⟨(requestStage_assert_no_loop true true 5).1,
    (requestStage_assert_no_loop true true 5).2.1 rfl⟩

/-- Flags of the ToCPU readback chain (gpu.h:577-631): which actions of
the chain have already occurred. -/
structure ToCPUState where
  copySubmitted : Bool
  workDoneFired : Bool
  mapRequested : Bool
  mapFired : Bool
  destWritten : Bool
  unmapped : Bool
  resolved : Bool
deriving DecidableEq

/-- Events of the ToCPU chain: the synchronous body of ToCPU (encode and
submit the copy, register the work-done callback), the delivery of the
work-done callback, and the delivery of the map callback. -/
inductive ToCPUEv
  | submit
  | workDone
  | mapDone
deriving DecidableEq

/-- One event of the ToCPU chain (gpu.h:577-631). The work-done callback
can only be delivered after the copy was submitted and the callback
registered (gpu.h:605-629); its body calls wgpuBufferMapAsync
(gpu.h:614). The map callback can only be delivered after that request;
its body copies the mapped bytes into the destination of the caller, unmaps
the buffer, and resolves the promise (gpu.h:620-625). Events whose
enabling condition does not hold leave the state unchanged. -/
def stepToCPU (s : ToCPUState) (e : ToCPUEv) : ToCPUState :=
  match e with
  | ToCPUEv.submit =>
    if !s.copySubmitted then { s with copySubmitted := true } else s
  | ToCPUEv.workDone =>
    if s.copySubmitted && !s.workDoneFired then
      { s with
          workDoneFired := true
          mapRequested := true }
    else s
  | ToCPUEv.mapDone =>
    if s.mapRequested && !s.mapFired then
      { s with
          mapFired := true
          destWritten := true
          unmapped := true
          resolved := true }
    else s

/-- The state at the program point just before ToCPU runs. -/
def initToCPU : ToCPUState := ⟨false, false, false, false, false, false, false⟩

/-- The state of the chain after an arbitrary schedule of events. -/
def runToCPU (evs : List ToCPUEv) : ToCPUState :=
  evs.foldl stepToCPU initToCPU

/-- Ordering invariant of the chain: every flag implies the flag of the
stage enabling it. -/
def invB (s : ToCPUState) : Bool :=
  (!s.workDoneFired || s.copySubmitted)
  && (!s.mapRequested || s.workDoneFired)
  && (!s.mapFired || s.mapRequested)
  && (!s.destWritten || s.mapFired)
  && (!s.unmapped || s.destWritten)
  && (!s.resolved || s.unmapped)

theorem invB_step : ∀ (s : ToCPUState) (e : ToCPUEv),
    invB s = true → invB (stepToCPU s e) = true := by
  intro s e
  obtain ⟨a, b, c, d, e', f, g⟩ := s
  cases e <;> cases a <;> cases b <;> cases c <;> cases d <;> cases e' <;>
    cases f <;> cases g <;> decide

theorem invB_run : ∀ (evs : List ToCPUEv) (s : ToCPUState),
    invB s = true → invB (evs.foldl stepToCPU s) = true := by
  intro evs
  induction evs with
  | nil => intro s hs; simpa using hs
  | cons e evs ih =>
    intro s hs
    simp only [List.foldl_cons]
    exact ih _ (invB_step s e hs)

/-- Wait(ctx, future) (gpu.h:565-570) driving the ToCPU chain: while the
future is not ready, pump the instance event-processing function (which
may deliver one pending callback) and re-check. Fuel bounds the number
of iterations; the loop returns the final state only once the future is
resolved, and returns none when fuel or pending events run out first. -/
def WaitLoop : Nat → List ToCPUEv → ToCPUState → Option ToCPUState
  | 0, _, s => if s.resolved then some s else none
  | _ + 1, [], s => if s.resolved then some s else none
  | fuel + 1, e :: evs, s =>
    if s.resolved then some s else WaitLoop fuel evs (stepToCPU s e)

/-- ToCPU as a whole (gpu.h:577-631): the synchronous body submits the
copy, then Wait pumps events until the future resolves. -/
def runToCPUWait (fuel : Nat) (evs : List ToCPUEv) : Option ToCPUState :=
  WaitLoop fuel evs (stepToCPU initToCPU ToCPUEv.submit)

theorem WaitLoop_resolved (fuel : Nat) :
    ∀ (evs : List ToCPUEv) (s r : ToCPUState),
      WaitLoop fuel evs s = some r →
      r.resolved = true ∧ (invB s = true → invB r = true) := by
  induction fuel with
  | zero =>
    intro evs s r h
    simp only [WaitLoop] at h
    by_cases hr : s.resolved = true
    · rw [if_pos hr] at h
      cases h
      exact ⟨hr, fun hi => hi⟩
    · rw [if_neg hr] at h
      cases h
  | succ fuel ih =>
    intro evs s r h
    cases evs with
    | nil =>
      simp only [WaitLoop] at h
      by_cases hr : s.resolved = true
      · rw [if_pos hr] at h
        cases h
        exact ⟨hr, fun hi => hi⟩
      · rw [if_neg hr] at h
        cases h
    | cons e evs' =>
      simp only [WaitLoop] at h
      by_cases hr : s.resolved = true
      · rw [if_pos hr] at h
        cases h
        exact ⟨hr, fun hi => hi⟩
      · rw [if_neg hr] at h
        obtain ⟨h1, h2⟩ := ih evs' (stepToCPU s e) r h
        exact ⟨h1, fun hi => h2 (invB_step s e hi)⟩

/-- C3: in every schedule of the ToCPU callback chain the three stages
occur in strict order — the buffer-to-buffer copy is submitted first,
the read-mapping is requested only after the work-done callback has
fired (which requires the submitted copy), and the destination write,
unmap and promise resolution happen only after the map callback has
fired — and the Wait loop, which pumps the event-processing function
while the future is unready, returns only in a state where the future is
resolved, hence where the whole chain has completed. -/
theorem ToCPU_stage_order :
    (∀ evs : List ToCPUEv,
      ((runToCPU evs).mapRequested = true →
        (runToCPU evs).workDoneFired = true ∧ (runToCPU evs).copySubmitted = true)
      ∧ ((runToCPU evs).destWritten = true →
        (runToCPU evs).mapFired = true ∧ (runToCPU evs).mapRequested = true)
      ∧ ((runToCPU evs).resolved = true →
        (runToCPU evs).destWritten = true ∧ (runToCPU evs).unmapped = true))
    ∧ (∀ (fuel : Nat) (evs : List ToCPUEv) (r : ToCPUState),
        runToCPUWait fuel evs = some r →
        r.resolved = true ∧ r.destWritten = true ∧ r.mapFired = true
        ∧ r.workDoneFired = true ∧ r.copySubmitted = true) := by
  have hImp : ∀ s : ToCPUState, invB s = true →
      (s.mapRequested = true → s.workDoneFired = true ∧ s.copySubmitted = true)
      ∧ (s.destWritten = true → s.mapFired = true ∧ s.mapRequested = true)
      ∧ (s.resolved = true → s.destWritten = true ∧ s.unmapped = true) := by
    intro s
    obtain ⟨a, b, c, d, e', f, g⟩ := s
    cases a <;> cases b <;> cases c <;> cases d <;> cases e' <;>
      cases f <;> cases g <;> decide
  have hChain : ∀ s : ToCPUState, invB s = true → s.resolved = true →
      s.destWritten = true ∧ s.mapFired = true ∧ s.workDoneFired = true
      ∧ s.copySubmitted = true := by
    intro s
    obtain ⟨a, b, c, d, e', f, g⟩ := s
    cases a <;> cases b <;> cases c <;> cases d <;> cases e' <;>
      cases f <;> cases g <;> decide
  refine ⟨fun evs => hImp _ (invB_run evs initToCPU (by decide)), ?_⟩
  intro fuel evs r h
  obtain ⟨h1, h2⟩ := WaitLoop_resolved fuel evs _ r h
  have hr : invB r = true := h2 (by decide)
  obtain ⟨c1, c2, c3, c4⟩ := hChain r hr h1
  exact ⟨h1, c1, c2, c3, c4⟩

theorem ToCPU_stage_order_witness :
    ((runToCPU [ToCPUEv.submit, ToCPUEv.workDone]).workDoneFired = true
      ∧ (runToCPU [ToCPUEv.submit, ToCPUEv.workDone]).copySubmitted = true)
    ∧ (⟨true, true, true, true, true, true, true⟩ : ToCPUState).resolved = true :=
  ⟨(ToCPU_stage_order.1 [ToCPUEv.submit, ToCPUEv.workDone]).1 (by decide),
    (ToCPU_stage_order.2 2 [ToCPUEv.workDone, ToCPUEv.mapDone]
      ⟨true, true, true, true, true, true, true⟩ (by decide)).1⟩

/-- Buffer binding type of a bind-group layout entry. -/
inductive BindingType
  | storage
  | uniform
deriving DecidableEq

/-- WGPUBindGroupLayoutEntry as built by CreateKernel: binding index,
buffer binding type and minimum binding size. -/
structure WGPUBindGroupLayoutEntry where
  binding : Nat
  btype : BindingType
  minBindingSize : Nat
deriving DecidableEq

/-- Default-constructed layout entry, used as the getD default. -/
def defLayoutEntry : WGPUBindGroupLayoutEntry := ⟨0, BindingType.storage, 0⟩

/-- WGPUBindGroupEntry as built by CreateKernel: binding index, bound
buffer handle, offset and size. -/
structure WGPUBindGroupEntry where
  binding : Nat
  buffer : Nat
  offset : Nat
  size : Nat
deriving DecidableEq

/-- Kernel (gpu.h:180-188), together with the bind-group layout entries
CreateKernel passes to wgpuDeviceCreateBindGroupLayout (gpu.h:720-752)
and the bind-group entries it passes to wgpuDeviceCreateBindGroup
(gpu.h:773-798), recorded so that the created layout objects are
observable. -/
structure Kernel where
  buffers : List Nat
  bufferSizes : List Nat
  numBindings : Nat
  nWorkgroups : Shape
  layoutEntries : List WGPUBindGroupLayoutEntry
  bindGroupEntries : List WGPUBindGroupEntry
deriving DecidableEq

/-- Usage flags of the parameter buffer (uniform | copy-dst,
gpu.h:760-764), as an opaque code distinct from the storage default. -/
def kParamsBufferUsage : Nat := 2

/-- CreateKernel(ctx, shader, inputs, numTensors, nThreads, params,
paramsSize) (gpu.h:698-830). The assert at gpu.h:702 requires nThreads
to have rank 3; with assertions enabled a violation is fatal, so the
construction path past it is modeled as unreachable (none). numBindings
is numTensors plus one iff paramsSize > 0, in which case paramIndex =
numBindings - 1 (gpu.h:709-715). One storage-type layout entry per input
is built with minBindingSize the byte size of the tensor (gpu.h:722-732), and
a uniform-type entry of size paramsSize is added at paramIndex when
paramsSize > 0 (gpu.h:733-745). The params buffer is created on the
device and written when paramsSize > 0 (gpu.h:759-768). nWorkgroups is
(nThreads[i] + (workgroupSize[i] - 1)) / workgroupSize[i] per axis
(gpu.h:822-825). -/
def CreateKernel (dev : DeviceState) (shader : ShaderCode)
    (inputs : List Tensor) (nThreads : Shape) (paramsSize : Nat) :
    Option (Kernel × DeviceState) :=
  if nThreads.rank = 3 then
    let numTensors := inputs.length
    let numBindings := numTensors + (if 0 < paramsSize then 1 else 0)
    let paramIndex := numBindings - 1
    let layoutEntries :=
      (List.range numTensors).map (fun i =>
        WGPUBindGroupLayoutEntry.mk i BindingType.storage
          ((inputs.getD i defTensor).data.size))
      ++ (if 0 < paramsSize then
            [WGPUBindGroupLayoutEntry.mk paramIndex BindingType.uniform paramsSize]
          else [])
    let paramBufs := if 0 < paramsSize then
        [(wgpuDeviceCreateBuffer dev kParamsBufferUsage paramsSize).1]
      else []
    let devOut := if 0 < paramsSize then
        (wgpuDeviceCreateBuffer dev kParamsBufferUsage paramsSize).2
      else dev
    let buffers := inputs.map (fun t => t.data.buffer) ++ paramBufs
    let bufferSizes := inputs.map (fun t => t.data.size)
      ++ (if 0 < paramsSize then [paramsSize] else [])
    let bindGroupEntries :=
      (List.range numTensors).map (fun i =>
        WGPUBindGroupEntry.mk i ((inputs.getD i defTensor).data.buffer) 0
          ((inputs.getD i defTensor).data.size))
      ++ (if 0 < paramsSize then
            [WGPUBindGroupEntry.mk paramIndex (paramBufs.getD 0 0) 0 paramsSize]
          else [])
    let nWorkgroups := mkShape [
      (nThreads.get 0 + (shader.workgroupSize.get 0 - 1)) / shader.workgroupSize.get 0,
      (nThreads.get 1 + (shader.workgroupSize.get 1 - 1)) / shader.workgroupSize.get 1,
      (nThreads.get 2 + (shader.workgroupSize.get 2 - 1)) / shader.workgroupSize.get 2]
    some (⟨buffers, bufferSizes, numBindings, nWorkgroups, layoutEntries,
      bindGroupEntries⟩, devOut)
  else none

/-- The value (n + (w - 1)) / w is the least m with n ≤ m * w, i.e. the
exact integer ceiling of n / w, for every w > 0. -/
theorem ceil_div_least (n w : Nat) (hw : 0 < w) :
    n ≤ ((n + (w - 1)) / w) * w
    ∧ ∀ m : Nat, n ≤ m * w → (n + (w - 1)) / w ≤ m := by
  constructor
  · have h1 := Nat.div_add_mod (n + (w - 1)) w
    have h2 : (n + (w - 1)) % w < w := Nat.mod_lt _ hw
    have h3 : ((n + (w - 1)) / w) * w = w * ((n + (w - 1)) / w) :=
      Nat.mul_comm _ _
    omega
  · intro m hm
    rw [Nat.div_le_iff_le_mul_add_pred hw]
    have h' : m * w = w * m := Nat.mul_comm m w
    omega

/-- Element i of the mapped range list. -/
theorem getD_range_map {α : Type} (f : Nat → α) (n i : Nat) (d : α)
    (h : i < n) : ((List.range n).map f).getD i d = f i := by
  rw [List.getD_eq_getElem _ d (by simpa using h)]
  simp

/-- C8: CreateKernel requires its dispatch geometry nThreads to be of
rank exactly 3: whenever the rank differs from 3 the fatal assertion
fires and the construction path past it is unreachable, and under the
precondition rank = 3 the assertion never fires and construction
proceeds. -/
theorem CreateKernel_rank3_assert
    (dev : DeviceState) (shader : ShaderCode) (inputs : List Tensor)
    (nThreads : Shape) (paramsSize : Nat) :
    (nThreads.rank ≠ 3 →
      CreateKernel dev shader inputs nThreads paramsSize = none)
    ∧ (nThreads.rank = 3 →
      (CreateKernel dev shader inputs nThreads paramsSize).isSome = true) := by
  constructor
  · intro hne
    rw [CreateKernel, if_neg hne]
  · intro heq
    rw [CreateKernel, if_pos heq]
    rfl

/-- Example shader with workgroup size {256, 1, 1}. -/
def exShader : ShaderCode := ⟨[], mkShape [256, 1, 1], kf32⟩

theorem CreateKernel_rank3_assert_witness :
    CreateKernel devInit exShader [] (mkShape [1, 1]) 0 = none
    ∧ (CreateKernel devInit exShader [] (mkShape [1, 1, 1]) 0).isSome = true :=
  ⟨(CreateKernel_rank3_assert devInit exShader [] (mkShape [1, 1]) 0).1
      (by decide),
    (CreateKernel_rank3_assert devInit exShader [] (mkShape [1, 1, 1]) 0).2 rfl⟩

/-- C1: every Kernel built by CreateKernel with N input tensors has
numBindings = N when no parameter block is present (paramsSize = 0) and
numBindings = N + 1 when one is present (paramsSize > 0); the first N
binding-layout entries are storage-type with minimum binding size the
byte size of the corresponding tensor, and when the parameter block is
present its binding is the last index and is the only uniform-type
entry. -/
theorem CreateKernel_numBindings_layout
    (dev dev' : DeviceState) (shader : ShaderCode) (inputs : List Tensor)
    (nThreads : Shape) (paramsSize : Nat) (k : Kernel)
    (h : CreateKernel dev shader inputs nThreads paramsSize = some (k, dev')) :
    (paramsSize = 0 → k.numBindings = inputs.length)
    ∧ (0 < paramsSize → k.numBindings = inputs.length + 1)
    ∧ k.layoutEntries.length = k.numBindings
    ∧ (∀ i, i < inputs.length →
        k.layoutEntries.getD i defLayoutEntry =
          ⟨i, BindingType.storage, (inputs.getD i defTensor).data.size⟩)
    ∧ (0 < paramsSize →
        k.layoutEntries.getD inputs.length defLayoutEntry =
          ⟨inputs.length, BindingType.uniform, paramsSize⟩)
    ∧ (∀ e ∈ k.layoutEntries, e.btype = BindingType.uniform →
        0 < paramsSize ∧ e.binding = k.numBindings - 1) := by
  have hr : nThreads.rank = 3 := by
    by_contra hne
    rw [CreateKernel, if_neg hne] at h
    cases h
  rw [CreateKernel, if_pos hr] at h
  simp only [Option.some.injEq, Prod.mk.injEq] at h
  obtain ⟨hk, hdev⟩ := h
  subst hk
  refine ⟨?_, ?_, ?_, ?_, ?_, ?_⟩
  · intro hz
    simp [hz]
  · intro hp
    simp [hp]
  · by_cases hp : 0 < paramsSize <;> simp [hp]
  · intro i hi
    show ((List.range inputs.length).map _ ++ _).getD i defLayoutEntry = _
    rw [List.getD_append _ _ _ _ (by simpa using hi)]
    exact getD_range_map _ _ _ _ hi
  · intro hp
    show ((List.range inputs.length).map _ ++ _).getD inputs.length
      defLayoutEntry = _
    rw [List.getD_append_right _ _ _ _ (by simp)]
    simp [hp]
  · intro e he hu
    show 0 < paramsSize ∧ e.binding =
      inputs.length + (if 0 < paramsSize then 1 else 0) - 1
    rcases List.mem_append.mp he with hin | hin
    · obtain ⟨i, hi, hei⟩ := List.mem_map.mp hin
      rw [← hei] at hu
      cases hu
    · by_cases hp : 0 < paramsSize
      · rw [if_pos hp] at hin
        rcases List.mem_singleton.mp hin with rfl
        exact ⟨hp, by simp [hp]⟩
      · rw [if_neg hp] at hin
        cases hin

/-- Example input tensors and the concrete kernel CreateKernel builds
from them with a 16-byte parameter block. -/
def kEx : Kernel :=
  ⟨[10, 11, 1], [8, 12, 16], 3, mkShape [1, 1, 1],
    [⟨0, BindingType.storage, 8⟩, ⟨1, BindingType.storage, 12⟩,
      ⟨2, BindingType.uniform, 16⟩],
    [⟨0, 10, 0, 8⟩, ⟨1, 11, 0, 12⟩, ⟨2, 1, 0, 16⟩]⟩

/-- Device state after the params-buffer allocation of kEx. -/
def devEx : DeviceState := ⟨2, [⟨1, 2, 16⟩]⟩

theorem CreateKernel_numBindings_layout_witness :
    kEx.numBindings = 2 + 1
    ∧ kEx.layoutEntries.getD 1 defLayoutEntry = ⟨1, BindingType.storage, 12⟩
    ∧ kEx.layoutEntries.getD 2 defLayoutEntry = ⟨2, BindingType.uniform, 16⟩ := by
  have heq : CreateKernel devInit exShader
      [⟨⟨10, 7, 8⟩, mkShape [2]⟩, ⟨⟨11, 7, 12⟩, mkShape [3]⟩]
      (mkShape [4, 1, 1]) 16 = some (kEx, devEx) := by decide
  have hthm := CreateKernel_numBindings_layout devInit devEx exShader
    [⟨⟨10, 7, 8⟩, mkShape [2]⟩, ⟨⟨11, 7, 12⟩, mkShape [3]⟩]
    (mkShape [4, 1, 1]) 16 kEx heq
  refine ⟨hthm.2.1 (by decide), ?_, ?_⟩
  · have h1 := hthm.2.2.2.1 1 (by decide)
    simpa using h1
  · have h2 := hthm.2.2.2.2.1 (by decide)
    simpa using h2

/-- C2: for a rank-3 dispatch geometry {n0, n1, n2} and a shader whose
workgroup size is {w0, w1, w2} with each wi > 0, the stored per-axis
workgroup count of the created kernel is the exact integer ceiling of
ni / wi: it is the least m with ni ≤ m * wi, for each axis. -/
theorem CreateKernel_nWorkgroups_ceil
    (dev dev' : DeviceState) (shader : ShaderCode) (inputs : List Tensor)
    (paramsSize n0 n1 n2 w0 w1 w2 : Nat) (k : Kernel)
    (hw : shader.workgroupSize = mkShape [w0, w1, w2])
    (h0 : 0 < w0) (h1 : 0 < w1) (h2 : 0 < w2)
    (h : CreateKernel dev shader inputs (mkShape [n0, n1, n2]) paramsSize =
      some (k, dev')) :
    k.nWorkgroups.rank = 3
    ∧ (n0 ≤ k.nWorkgroups.get 0 * w0
        ∧ ∀ m, n0 ≤ m * w0 → k.nWorkgroups.get 0 ≤ m)
    ∧ (n1 ≤ k.nWorkgroups.get 1 * w1
        ∧ ∀ m, n1 ≤ m * w1 → k.nWorkgroups.get 1 ≤ m)
    ∧ (n2 ≤ k.nWorkgroups.get 2 * w2
        ∧ ∀ m, n2 ≤ m * w2 → k.nWorkgroups.get 2 ≤ m) := by
  rw [CreateKernel, if_pos (by rfl)] at h
  simp only [Option.some.injEq, Prod.mk.injEq] at h
  obtain ⟨hk, hdev⟩ := h
  subst hk
  rw [hw]
  have hget : ∀ a b c : Nat, (mkShape [a, b, c]).get 0 = a
      ∧ (mkShape [a, b, c]).get 1 = b ∧ (mkShape [a, b, c]).get 2 = c := by
    intro a b c
    refine ⟨rfl, rfl, rfl⟩
  refine ⟨rfl, ?_, ?_, ?_⟩
  · simpa [Shape.get, mkShape] using ceil_div_least n0 w0 h0
  · simpa [Shape.get, mkShape] using ceil_div_least n1 w1 h1
  · simpa [Shape.get, mkShape] using ceil_div_least n2 w2 h2

theorem CreateKernel_nWorkgroups_ceil_witness :
    CreateKernel devInit exShader [] (mkShape [1000, 1, 1]) 0 =
      some (⟨[], [], 0, mkShape [4, 1, 1], [], []⟩, devInit)
    ∧ (⟨[], [], 0, mkShape [4, 1, 1], [], []⟩ : Kernel).nWorkgroups.get 0 = 4
    ∧ 1000 ≤ (⟨[], [], 0, mkShape [4, 1, 1], [], []⟩ : Kernel).nWorkgroups.get 0 * 256
    ∧ (⟨[], [], 0, mkShape [4, 1, 1], [], []⟩ : Kernel).nWorkgroups.get 0 ≤ 4 := by
  have heq : CreateKernel devInit exShader [] (mkShape [1000, 1, 1]) 0 =
      some (⟨[], [], 0, mkShape [4, 1, 1], [], []⟩, devInit) := by decide
  have hthm := CreateKernel_nWorkgroups_ceil devInit devInit exShader [] 0
    1000 1 1 256 1 1 ⟨[], [], 0, mkShape [4, 1, 1], [], []⟩ rfl
    (by decide) (by decide) (by decide) heq
  exact ⟨heq, by decide, hthm.2.1.1, hthm.2.1.2 4 (by decide)⟩

end gpu
